import Mathlib

/-!
Verification of the run-orchestration core of the Strands Swarm Console
(`src/swarm-ui/src/App.tsx`).  The TypeScript source is shallowly embedded:
pure helpers (`safeParse`, `buildUrl`, `updateAgent`, `trim`) become Lean
functions; the stateful React component (`runSwarm`, the SSE listeners,
`fetchFinal`, `addTrace`) becomes explicit state passing over a `UiState`
record plus an action-step relation that models the single-threaded JS
event loop: each action (a `runSwarm` invocation up to stream attachment,
the delivery of one SSE event, the resolution of one in-flight poll
request) runs atomically, matching the await points of the source.

The browser built-ins `JSON.parse` and `new URL` are not part of the
repository; the embedding is parameterized by them (`parse`, `resolve`).
-/

namespace SwarmUI

/-- Model of a JavaScript JSON value (the result of `JSON.parse`).
Numbers are modelled as integers; none of the verified claims depend on
fractional values. -/
inductive JsValue where
  | null : JsValue
  | bool (b : Bool) : JsValue
  | num (n : Int) : JsValue
  | str (s : String) : JsValue
  | arr (elems : List JsValue) : JsValue
  | obj (fields : List (String × JsValue)) : JsValue

/-- Property access `v.k` on a JS value: defined (first binding) only for
objects, `undefined` (`none`) otherwise. -/
def JsValue.getField : JsValue → String → Option JsValue
  | .obj fields, k => (fields.find? (fun p => p.1 = k)).map Prod.snd
  | _, _ => none

/-- Optional chaining `d?.k` where `d` may be `undefined`. -/
def jsGet (d : Option JsValue) (k : String) : Option JsValue :=
  d.bind (fun v => v.getField k)

/-- JavaScript truthiness of a value. -/
def JsValue.truthy : JsValue → Bool
  | .null => false
  | .bool b => b
  | .num n => n != 0
  | .str s => s != ""
  | .arr _ => true
  | .obj _ => true

/-- `x || dflt` on a possibly-undefined JS value. -/
def jsOr (x : Option JsValue) (dflt : JsValue) : JsValue :=
  match x with
  | some v => if v.truthy then v else dflt
  | none => dflt

/-- `m || dflt` for JS strings (the empty string is falsy); used for the
`err?.message || fallback` patterns of the source. -/
def jsOrString (m dflt : String) : String :=
  if m = "" then dflt else m

mutual
/-- JS string coercion `String(v)` as used by template literals. -/
def JsValue.jsToString : JsValue → String
  | .null => "null"
  | .bool true => "true"
  | .bool false => "false"
  | .num n => toString n
  | .str s => s
  | .arr elems => jsListToString elems
  | .obj _ => "[object Object]"
/-- Array stringification: elements joined by commas. -/
def jsListToString : List JsValue → String
  | [] => ""
  | [x] => x.jsToString
  | x :: y :: rest => x.jsToString ++ "," ++ jsListToString (y :: rest)
end

/-- Template-literal interpolation of a possibly-undefined value, as in
the source's  api/stream/(run_id)  and  api/result/(id)  URLs. -/
def jsTemplate : Option JsValue → String
  | none => "undefined"
  | some v => v.jsToString

/-- `function safeParse(s) \x7b try \x7b return JSON.parse(s) \x7d catch \x7b return undefined \x7d \x7d`
(App.tsx line 764).  The browser built-in `JSON.parse` is the parameter
`parse`; it either returns a value or throws (`Except.error`).  The
try/catch maps the thrown path to `undefined` (`none`). -/
def safeParse (parse : String → Except String JsValue) (s : String) : Option JsValue :=
  match parse s with
  | .ok v => some v
  | .error _ => none

/-- The characters removed by JavaScript `String.prototype.trim` (the
ASCII subset; the claims only exercise spaces and tabs). -/
def isJsWhitespace (c : Char) : Bool :=
  c = ' ' || c = '\t' || c = '\n' || c = '\r' || c = '\x0b' || c = '\x0c'

/-- `task.trim()`: strip leading and trailing whitespace. -/
def trimString (s : String) : String :=
  ⟨((s.data.dropWhile isJsWhitespace).reverse.dropWhile isJsWhitespace).reverse⟩

/-- `path.replace(/^\/+/, '')` — drop every leading slash. -/
def dropSlashes : List Char → List Char
  | [] => []
  | c :: cs => if c = '/' then dropSlashes cs else c :: cs

/-- `apiBase.replace(/\/+$/, '/')` — collapse a trailing run of slashes
to a single slash (a base with no trailing slash is unchanged). -/
def collapseTrailingSlashes (s : String) : String :=
  match s.data.reverse.dropWhile (fun c => c = '/') with
  | [] => if s.data = [] then s else "/"
  | rest => if rest.length = s.data.length then s else ⟨rest.reverse ++ ['/']⟩

/-- `buildUrl` (App.tsx lines 519-524).  `resolve normalized apiBase`
models `new URL(normalized, apiBase).toString()`, returning `none` when
the constructor would throw. -/
def buildUrl (resolve : String → String → Option String) (apiBase : String)
    (path : String) : String :=
  let normalized : String := ⟨dropSlashes path.data⟩
  if apiBase = "" ∨ apiBase = "/" then "/" ++ normalized
  else
    match resolve normalized apiBase with
    | some u => u
    | none => collapseTrailingSlashes apiBase ++ normalized

/-! ## Data model (App.tsx lines 393-422, second document of the file) -/

/-- `interface AgentSpec` (line 394). -/
structure AgentSpec where
  name : String
  system_prompt : String
  model : Option String

/-- A `Partial<AgentSpec>` patch as passed to `updateAgent`.  A field that
is `none` is absent from the patch object; a present field overwrites the
existing one when spread (`\x7b ...copy[idx], ...patch \x7d`). -/
structure AgentPatch where
  name : Option String := none
  system_prompt : Option String := none
  model : Option (Option String) := none

/-- Object spread `\x7b ...a, ...patch \x7d`: later own properties win. -/
def applyPatch (a : AgentSpec) (p : AgentPatch) : AgentSpec :=
  { name := p.name.getD a.name
    system_prompt := p.system_prompt.getD a.system_prompt
    model := p.model.getD a.model }

/-- `updateAgent` (App.tsx lines 574-576): copy the array and overwrite
slot `idx` with the merged object.  For an in-range `idx` the copy-and-
overwrite is exactly `List.set`; the UI only calls `updateAgent` with
indices produced by mapping over the array, so out-of-range writes
(which would create a sparse JS array) never occur and are modelled as
the identity. -/
def updateAgent (agents : List AgentSpec) (idx : Nat) (patch : AgentPatch) :
    List AgentSpec :=
  match agents[idx]? with
  | some a => agents.set idx (applyPatch a patch)
  | none => agents

/-- The `type` discriminator of `TraceEvent` (line 417). -/
inductive EventType where
  | ready | start | log | error | done | summary | clientError
deriving DecidableEq

/-- The fields of a `TraceEvent` other than `ts`, i.e. what the SSE
listeners pass to `addTrace` (`Omit<TraceEvent, 'ts'>`).  Every optional
field holds a raw JS value: the TypeScript annotations are erased at
runtime, so nothing constrains e.g. `status` to be a string. -/
structure TraceFields where
  type : EventType
  level : Option JsValue := none
  message : Option JsValue := none
  run_id : Option JsValue := none
  task : Option JsValue := none
  status : Option JsValue := none
  node_history : Option JsValue := none
  has_output : Option JsValue := none
  output_preview : Option JsValue := none
  transcript_preview : Option JsValue := none

/-- A stored trace entry: the listener-supplied fields plus the arrival
timestamp `ts: Date.now()` added by `addTrace`. -/
structure TraceEvent where
  ts : Nat
  data : TraceFields

/-- An HTTP response as observed by the source: its status code and the
result of `await r.json()` on it (`Except.error` when the body is not
valid JSON and `r.json()` rejects). -/
structure HttpResponse where
  status : Nat
  body : Except String JsValue

/-- `Response.ok`: status in the inclusive range 200-299. -/
def HttpResponse.isOk (r : HttpResponse) : Bool :=
  200 ≤ r.status && r.status ≤ 299

/-- One open `EventSource`, remembering the `run_id` value its listeners
close over (`undefined` possible, since `run_id` is never validated). -/
structure StreamConn where
  run_id : Option JsValue

/-- The React state cells of `App` that the orchestration core touches
(App.tsx lines 504-515).  `esRef` is the `useRef` slot holding the open
`EventSource`, `none` when closed/absent. -/
structure UiState where
  loading : Bool
  streaming : Bool
  resp : Option JsValue
  error : Option String
  runId : Option JsValue
  traces : List TraceEvent
  esRef : Option StreamConn
  activeTab : String

/-- The component's initial state. -/
def initialUi : UiState :=
  { loading := false, streaming := false, resp := none, error := none
    runId := none, traces := [], esRef := none, activeTab := "Trace" }

/-- `addTrace` (App.tsx lines 525-528): append the event with `ts` set to
the consumer clock (`Date.now()`) at append time.  The scroll side effect
touches no state. -/
def addTrace (now : Nat) (t : TraceFields) (s : UiState) : UiState :=
  { s with traces := s.traces ++ [{ ts := now, data := t }] }

/-- `clearTraces` (App.tsx line 529). -/
def clearTraces (s : UiState) : UiState :=
  { s with traces := [] }

/-! ## The result poller `fetchFinal` (App.tsx lines 530-540) -/

/-- Observable effects issued by the core, for counting network calls and
timers. -/
inductive Effect where
  | fetchSubmit (url : String)
  | openStream (url : String)
  | closeStream
  | fetchPoll (url : String)
  | sleep (ms : Nat)
deriving DecidableEq

/-- The poll URL `buildUrl('api/result/' + id)`. -/
def resultUrl (resolve : String → String → Option String) (apiBase : String)
    (id : Option JsValue) : String :=
  buildUrl resolve apiBase ("api/result/" ++ jsTemplate id)

/-- Outcome of one iteration of the `fetchFinal` loop body on a resolved
response `r`:  status 202 → sleep 1s and continue;  any other non-ok
status → throw `HTTP (status)`;  otherwise parse the body, which either
yields the data (`setResp(data); return`) or rejects. -/
inductive PollOutcome where
  | retry
  | value (data : JsValue)
  | raise (msg : String)

/-- The loop body of `fetchFinal` (lines 533-537). -/
def pollIteration (r : HttpResponse) : PollOutcome :=
  if r.status = 202 then .retry
  else if !r.isOk then .raise ("HTTP " ++ toString r.status)
  else
    match r.body with
    | .ok data => .value data
    | .error e => .raise e

/-- Result of running `fetchFinal` to completion: either the fetched data
(the code does `setResp(data)` and returns) or a thrown error message. -/
inductive FetchFinalOutcome where
  | ok (data : JsValue)
  | thrown (msg : String)

/-- `for (let i = 0; i < 120; i++) ...` of `fetchFinal`, unrolled on the
number of remaining iterations (`remaining = 120 - i`), with `responses j`
the response the `j`-th poll request resolves to.  Returns the outcome
together with the ordered effect trace (each request effect precedes the
handling of its response; each 202 awaits a 1000 ms timer to completion
before the next request). -/
def fetchFinalGo (responses : Nat → HttpResponse) (url : String) :
    Nat → Nat → FetchFinalOutcome × List Effect
  | _, 0 => (.thrown "Timed out waiting for result", [])
  | i, rem + 1 =>
    match pollIteration (responses i) with
    | .retry =>
      let next := fetchFinalGo responses url (i + 1) rem
      (next.1, .fetchPoll url :: .sleep 1000 :: next.2)
    | .value data => (.ok data, [.fetchPoll url])
    | .raise msg => (.thrown msg, [.fetchPoll url])

/-- `fetchFinal(id)` (App.tsx lines 530-540): poll `api/result/(id)` up to
120 times. -/
def fetchFinal (resolve : String → String → Option String) (apiBase : String)
    (responses : Nat → HttpResponse) (id : Option JsValue) :
    FetchFinalOutcome × List Effect :=
  fetchFinalGo responses (resultUrl resolve apiBase id) 0 120

/-- Number of poll requests in an effect trace. -/
def countPolls (tr : List Effect) : Nat :=
  tr.countP (fun e => match e with | .fetchPoll _ => true | _ => false)

/-- Number of started timers in an effect trace. -/
def countSleeps (tr : List Effect) : Nat :=
  tr.countP (fun e => match e with | .sleep _ => true | _ => false)

/-! ## The SSE listeners and the run orchestration (App.tsx lines 543-572)

The JS runtime is single-threaded: between two `await` points a handler
runs atomically.  The model therefore advances by atomic actions:
a `runSwarm` invocation (its synchronous prefix, the resolved submit
response and, on success, the stream attachment), the delivery of one SSE
event on the currently open stream, and the resolution of one in-flight
poll request of a running `fetchFinal` loop. -/

/-- A `fetchFinal` loop that the `done` handler has started and that is
still in flight: the captured `run_id` and the number of loop iterations
still allowed (120 at spawn); one poll request is always outstanding. -/
structure PollTask where
  id : Option JsValue
  remaining : Nat

/-- The whole client: the React state plus the in-flight `fetchFinal`
loops (no code ever cancels one, so several can be pending). -/
structure World where
  ui : UiState
  poll : List PollTask

/-- The state of a freshly mounted component. -/
def initialWorld : World :=
  { ui := initialUi, poll := [] }

/-- The SSE listeners registered by `runSwarm` (App.tsx lines 553-568),
as one handler over the event name.  `conn` is the `EventSource` the
listener belongs to, providing the closed-over `run_id`.  The `done`
listener additionally closes the stream and starts `fetchFinal`,
returned as a spawned `PollTask`.  `clientError` is `es.onerror`
(line 568). -/
def handleStreamEvent (parse : String → Except String JsValue)
    (conn : StreamConn) (kind : EventType) (payload : String) (now : Nat)
    (s : UiState) : UiState × Option PollTask :=
  match kind with
  | .ready =>
    (addTrace now { type := .ready, message := some (.str "stream ready")
                    run_id := conn.run_id } s, none)
  | .start =>
    let d := safeParse parse payload
    (addTrace now { type := .start, run_id := conn.run_id
                    task := jsGet d "task" } s, none)
  | .log =>
    let d := safeParse parse payload
    (addTrace now { type := .log, level := some (jsOr (jsGet d "level") (.str "LOG"))
                    message := jsGet d "message" } s, none)
  | .error =>
    let d := safeParse parse payload
    (addTrace now { type := .error
                    message := some (jsOr (jsGet d "error") (.str "server error")) } s,
     none)
  | .done =>
    let d := safeParse parse payload
    let s1 := addTrace now { type := .done, status := jsGet d "status"
                             has_output := jsGet d "has_output"
                             output_preview := jsGet d "output_preview"
                             transcript_preview := jsGet d "transcript_preview" } s
    ({ s1 with esRef := none }, some { id := conn.run_id, remaining := 120 })
  | .summary =>
    let d := safeParse parse payload
    (addTrace now { type := .summary, status := jsGet d "status"
                    has_output := jsGet d "has_output"
                    output_preview := jsGet d "output_preview"
                    transcript_preview := jsGet d "transcript_preview" } s, none)
  | .clientError =>
    (addTrace now { type := .clientError
                    message := some (.str "stream connection error") } s, none)

/-- One invocation of `runSwarm` (App.tsx lines 543-572) with `task` the
current task text and `submitRes` the response the `api/run/start` fetch
resolves to.  Validation happens before any network call; the reset then
clears the state, closes any open stream and sets the busy flags; the
submit response is handled as in the source, with every thrown error
landing in the catch block (`setError(e?.message || 'Request failed')`,
clear the busy flags, close the ref).  Crucially, nothing here touches
`w.poll`: an in-flight `fetchFinal` of a previous run is not cancelled. -/
def runSwarmStep (resolve : String → String → Option String) (apiBase : String)
    (task : String) (submitRes : HttpResponse) (w : World) :
    World × List Effect :=
  if task = "" ∨ trimString task = "" then
    ({ w with ui := { w.ui with
        error := some "Please enter a task before running the swarm." } }, [])
  else
    let closeFx : List Effect := if w.ui.esRef.isSome then [.closeStream] else []
    let ui0 : UiState :=
      { w.ui with error := none, resp := none, runId := none, traces := []
                  esRef := none, activeTab := "Trace"
                  loading := true, streaming := true }
    let submitFx : Effect := .fetchSubmit (buildUrl resolve apiBase "api/run/start")
    if !submitRes.isOk then
      ({ w with ui := { ui0 with
          error := some (jsOrString ("HTTP " ++ toString submitRes.status) "Request failed")
          loading := false, streaming := false } },
       closeFx ++ [submitFx])
    else
      match submitRes.body with
      | .error e =>
        ({ w with ui := { ui0 with
            error := some (jsOrString e "Request failed")
            loading := false, streaming := false } },
         closeFx ++ [submitFx])
      | .ok v =>
        match v with
        | .null =>
          ({ w with ui := { ui0 with
              error := some (jsOrString "Cannot destructure property run_id of null" "Request failed")
              loading := false, streaming := false } },
           closeFx ++ [submitFx])
        | _ =>
          let rid := v.getField "run_id"
          let streamUrl := buildUrl resolve apiBase ("api/stream/" ++ jsTemplate rid)
          ({ w with ui := { ui0 with runId := rid, esRef := some { run_id := rid } } },
           closeFx ++ [submitFx, .openStream streamUrl])

/-- Delivery of one SSE event.  A closed `EventSource` delivers nothing;
the single open stream is the one in `esRef`.  When the `done` handler
spawns `fetchFinal`, its first poll request goes out immediately. -/
def deliverStep (parse : String → Except String JsValue)
    (resolve : String → String → Option String) (apiBase : String)
    (kind : EventType) (payload : String) (now : Nat) (w : World) :
    World × List Effect :=
  match w.ui.esRef with
  | none => (w, [])
  | some conn =>
    match handleStreamEvent parse conn kind payload now w.ui with
    | (ui1, none) => ({ w with ui := ui1 }, [])
    | (ui1, some t) =>
      ({ ui := ui1, poll := w.poll ++ [t] },
       [.closeStream, .fetchPoll (resultUrl resolve apiBase t.id)])

/-- Resolution of the outstanding poll request of pending loop `i` with
response `r`.  Success stores the body via `setResp(data)` — with no
check that the loop still belongs to the current run — and the `done`
handler's `finally` clears the busy flags; a thrown error is caught
(`setError(err?.message || 'Failed to fetch final result')`); a 202
sleeps and, if the attempt budget is not exhausted, issues the next
request, otherwise the loop ends and `fetchFinal` throws its timeout. -/
def pollStepAction (resolve : String → String → Option String) (apiBase : String)
    (i : Nat) (r : HttpResponse) (w : World) : World × List Effect :=
  match w.poll[i]? with
  | none => (w, [])
  | some t =>
    match pollIteration r with
    | .value data =>
      ({ ui := { w.ui with resp := some data, loading := false, streaming := false }
         poll := w.poll.eraseIdx i }, [])
    | .raise msg =>
      ({ ui := { w.ui with
            error := some (jsOrString msg "Failed to fetch final result")
            loading := false, streaming := false }
         poll := w.poll.eraseIdx i }, [])
    | .retry =>
      if t.remaining ≤ 1 then
        ({ ui := { w.ui with
            error := some (jsOrString "Timed out waiting for result" "Failed to fetch final result")
            loading := false, streaming := false }
           poll := w.poll.eraseIdx i }, [.sleep 1000])
      else
        ({ w with poll := w.poll.set i { t with remaining := t.remaining - 1 } },
         [.sleep 1000, .fetchPoll (resultUrl resolve apiBase t.id)])

/-- An atomic step of the client. -/
inductive Action where
  | runStart (task : String) (submitRes : HttpResponse)
  | deliver (kind : EventType) (payload : String) (now : Nat)
  | pollResolve (i : Nat) (r : HttpResponse)

/-- Whether an action is a new `runSwarm` invocation. -/
def Action.isRunInvocation : Action → Bool
  | .runStart _ _ => true
  | _ => false

/-- Dispatch one action. -/
def stepAction (parse : String → Except String JsValue)
    (resolve : String → String → Option String) (apiBase : String)
    (w : World) : Action → World × List Effect
  | .runStart task submitRes => runSwarmStep resolve apiBase task submitRes w
  | .deliver kind payload now => deliverStep parse resolve apiBase kind payload now w
  | .pollResolve i r => pollStepAction resolve apiBase i r w

/-- Run a schedule of actions, concatenating the effect traces. -/
def runActions (parse : String → Except String JsValue)
    (resolve : String → String → Option String) (apiBase : String)
    (w : World) : List Action → World × List Effect
  | [] => (w, [])
  | a :: rest =>
    let step := stepAction parse resolve apiBase w a
    let tail := runActions parse resolve apiBase step.1 rest
    (tail.1, step.2 ++ tail.2)

/-! ## Concrete oracles for closed computations.

`JSON.parse` and `new URL` are browser built-ins, so the model is
parameterized by them; the fixtures below instantiate them on the
concrete inputs used by witnesses and counterexamples, consistently with
the JSON grammar: the empty object literal parses to an empty object and
the other exercised payloads are not valid JSON. -/

/-- A `JSON.parse` oracle for the fixture payloads. -/
def fixtureParse : String → Except String JsValue :=
  fun s =>
    if s = "\x7b\x7d" then .ok (.obj [])
    else .error "Unexpected token"

/-- A `new URL` oracle; never consulted when `apiBase` is `/`. -/
def fixtureResolve : String → String → Option String :=
  fun _ _ => none

/-! ## Helper lemmas -/

/-- `dropSlashes` never leaves a leading slash. -/
lemma dropSlashes_head_ne (l : List Char) :
    ∀ c cs, dropSlashes l = c :: cs → c ≠ '/' := by
  induction l with
  | nil => intro c cs h; simp [dropSlashes] at h
  | cons a l ih =>
    intro c cs h
    by_cases ha : a = '/'
    · exact ih c cs (by simpa [dropSlashes, ha] using h)
    · rw [dropSlashes, if_neg ha] at h
      obtain ⟨rfl, -⟩ := List.cons.inj h
      exact ha

/-- `dropSlashes` removes exactly a (possibly empty) leading run of
slashes. -/
lemma dropSlashes_decomp (l : List Char) :
    ∃ n, l = List.replicate n '/' ++ dropSlashes l := by
  induction l with
  | nil => exact ⟨0, rfl⟩
  | cons a l ih =>
    by_cases ha : a = '/'
    · obtain ⟨n, hn⟩ := ih
      exact ⟨n + 1, by rw [dropSlashes, if_pos ha, List.replicate_succ, ha]
                       exact congrArg _ hn⟩
    · exact ⟨0, by rw [dropSlashes, if_neg ha]; rfl⟩

/-! ## Claim theorems -/

/-- Claim C10: `buildUrl` is a pure function of `(apiBase, path)` (purity
and determinism hold by construction in the embedding: the result depends
only on the arguments).  It strips all leading slashes from `path` — the
normalized path starts with no slash and differs from `path` exactly by a
leading run of slashes — and when `apiBase` is empty or exactly `/` the
result is `/` followed by the normalized path. -/
theorem buildUrl_root_base (resolve : String → String → Option String)
    (apiBase path : String) (h : apiBase = "" ∨ apiBase = "/") :
    buildUrl resolve apiBase path = "/" ++ (⟨dropSlashes path.data⟩ : String)
    ∧ (∀ c cs, dropSlashes path.data = c :: cs → c ≠ '/')
    ∧ (∃ n, path.data = List.replicate n '/' ++ dropSlashes path.data) := by
  refine ⟨?_, dropSlashes_head_ne path.data, dropSlashes_decomp path.data⟩
  rw [buildUrl, if_pos h]

/-- Witness for C10 at `apiBase = "/"`, `path = "//abc"`. -/
theorem buildUrl_root_base_witness :
    buildUrl fixtureResolve "/" "//abc" = "/abc" := by
  have h := buildUrl_root_base fixtureResolve "/" "//abc" (Or.inr rfl)
  exact h.1.trans rfl

/-- Claim C8: `safeParse` is total — in the embedding it is a plain
function with no exception channel, so it never throws; on every input it
returns the decoded value exactly when `JSON.parse` succeeds and
`undefined` (`none`) when `JSON.parse` throws. -/
theorem safeParse_total (parse : String → Except String JsValue) (s : String) :
    (∃ v, parse s = .ok v ∧ safeParse parse s = some v)
    ∨ (∃ e, parse s = .error e ∧ safeParse parse s = none) := by
  cases hp : parse s with
  | ok v => exact Or.inl ⟨v, rfl, by simp [safeParse, hp]⟩
  | error e => exact Or.inr ⟨e, rfl, by simp [safeParse, hp]⟩

/-- Claim C9: for a valid index, `updateAgent` replaces exactly the agent
at `idx` with the spread-merge of the patch over it, keeps the length,
and leaves every other position (hence the relative order) unchanged. -/
theorem updateAgent_frame (agents : List AgentSpec) (idx : Nat)
    (patch : AgentPatch) (h : idx < agents.length) :
    (updateAgent agents idx patch).length = agents.length
    ∧ (updateAgent agents idx patch)[idx]? =
        (agents[idx]?).map (fun a => applyPatch a patch)
    ∧ ∀ j, j ≠ idx → (updateAgent agents idx patch)[j]? = agents[j]? := by
  have ha : agents[idx]? = some agents[idx] := List.getElem?_eq_getElem h
  refine ⟨?_, ?_, ?_⟩
  · simp [updateAgent, ha]
  · rw [updateAgent, ha]
    simp only [Option.map_some]
    exact List.getElem?_set_self h
  · intro j hj
    rw [updateAgent, ha]
    exact List.getElem?_set_ne (Ne.symm hj)

/-- Witness for C9 on a concrete two-agent roster. -/
theorem updateAgent_frame_witness :
    (updateAgent [⟨"researcher", "p1", none⟩, ⟨"coder", "p2", none⟩] 0
        { name := some "lead" }).length = 2
    ∧ (updateAgent [⟨"researcher", "p1", none⟩, ⟨"coder", "p2", none⟩] 0
        { name := some "lead" })[0]? = some ⟨"lead", "p1", none⟩
    ∧ (updateAgent [⟨"researcher", "p1", none⟩, ⟨"coder", "p2", none⟩] 0
        { name := some "lead" })[1]? = some ⟨"coder", "p2", none⟩ := by
  have h := updateAgent_frame [⟨"researcher", "p1", none⟩, ⟨"coder", "p2", none⟩] 0
    { name := some "lead" } (by simp)
  exact ⟨h.1.trans rfl, h.2.1.trans rfl, (h.2.2 1 (by simp)).trans rfl⟩

/-- Unfolding lemma: a 202 response spends one attempt, one request and
one completed timer, then continues. -/
lemma fetchFinalGo_notReady (responses : Nat → HttpResponse) (url : String)
    (i rem : Nat) (h : (responses i).status = 202) :
    fetchFinalGo responses url i (rem + 1) =
      ((fetchFinalGo responses url (i + 1) rem).1,
       .fetchPoll url :: .sleep 1000 :: (fetchFinalGo responses url (i + 1) rem).2) := by
  simp [fetchFinalGo, pollIteration, h]

/-- Unfolding lemma: a 200 response with a decodable body terminates the
loop immediately with that body. -/
lemma fetchFinalGo_success (responses : Nat → HttpResponse) (url : String)
    (i rem : Nat) (data : JsValue) (h : responses i = ⟨200, .ok data⟩) :
    fetchFinalGo responses url i (rem + 1) = (.ok data, [.fetchPoll url]) := by
  simp [fetchFinalGo, pollIteration, h, HttpResponse.isOk]

/-- Claim C2: on poll responses `[not-ready, not-ready, success(R)]`,
`fetchFinal` issues exactly 3 requests, returns `R` on the first success
(the code records it via `setResp`), and issues no request after it: the
full effect trace is request, timer, request, timer, request. -/
theorem fetchFinal_three_attempts (resolve : String → String → Option String)
    (apiBase : String) (responses : Nat → HttpResponse) (R : JsValue)
    (id : Option JsValue)
    (h0 : (responses 0).status = 202) (h1 : (responses 1).status = 202)
    (h2 : responses 2 = ⟨200, .ok R⟩) :
    fetchFinal resolve apiBase responses id =
      (.ok R, [.fetchPoll (resultUrl resolve apiBase id), .sleep 1000,
               .fetchPoll (resultUrl resolve apiBase id), .sleep 1000,
               .fetchPoll (resultUrl resolve apiBase id)])
    ∧ countPolls (fetchFinal resolve apiBase responses id).2 = 3 := by
  have key : fetchFinal resolve apiBase responses id =
      (.ok R, [.fetchPoll (resultUrl resolve apiBase id), .sleep 1000,
               .fetchPoll (resultUrl resolve apiBase id), .sleep 1000,
               .fetchPoll (resultUrl resolve apiBase id)]) := by
    rw [fetchFinal, show (120 : Nat) = 119 + 1 from rfl,
        fetchFinalGo_notReady responses _ 0 119 h0,
        show (119 : Nat) = 118 + 1 from rfl,
        fetchFinalGo_notReady responses _ 1 118 h1,
        show (118 : Nat) = 117 + 1 from rfl,
        fetchFinalGo_success responses _ 2 117 R h2]
  exact ⟨key, by rw [key]; rfl⟩

/-- Witness for C2 on a concrete response schedule. -/
theorem fetchFinal_three_attempts_witness :
    fetchFinal fixtureResolve "/" (fun i => if i < 2 then ⟨202, .error "pending"⟩
        else ⟨200, .ok (.obj [("status", .str "COMPLETED")])⟩) (some (.str "r1")) =
      (.ok (.obj [("status", .str "COMPLETED")]),
       [.fetchPoll "/api/result/r1", .sleep 1000, .fetchPoll "/api/result/r1",
        .sleep 1000, .fetchPoll "/api/result/r1"]) := by
  have h := fetchFinal_three_attempts fixtureResolve "/"
    (fun i => if i < 2 then ⟨202, .error "pending"⟩
        else ⟨200, .ok (.obj [("status", .str "COMPLETED")])⟩)
    (.obj [("status", .str "COMPLETED")]) (some (.str "r1")) rfl rfl rfl
  exact h.1.trans rfl

/-- The timeout unfolding: when every response is a 202, the loop runs
through its whole budget, each attempt contributing one request and one
completed timer, and ends by throwing the timeout error. -/
lemma fetchFinalGo_allNotReady (responses : Nat → HttpResponse) (url : String)
    (h : ∀ j, (responses j).status = 202) :
    ∀ rem i, fetchFinalGo responses url i rem =
      (.thrown "Timed out waiting for result",
       (List.replicate rem ([.fetchPoll url, .sleep 1000] : List Effect)).flatten) := by
  intro rem
  induction rem with
  | zero => intro i; rfl
  | succ n ih =>
    intro i
    rw [fetchFinalGo_notReady responses url i n (h i), ih (i + 1),
        List.replicate_succ, List.flatten_cons]
    rfl

/-- Poll-request count of the timeout trace. -/
lemma countPolls_replicate (url : String) :
    ∀ n, countPolls ((List.replicate n ([.fetchPoll url, .sleep 1000] : List Effect)).flatten) = n := by
  intro n
  induction n with
  | zero => rfl
  | succ m ih =>
    rw [List.replicate_succ, List.flatten_cons, countPolls, List.countP_append]
    rw [countPolls] at ih
    rw [ih]
    show 1 + m = m + 1
    omega

/-- Timer count of the timeout trace. -/
lemma countSleeps_replicate (url : String) :
    ∀ n, countSleeps ((List.replicate n ([.fetchPoll url, .sleep 1000] : List Effect)).flatten) = n := by
  intro n
  induction n with
  | zero => rfl
  | succ m ih =>
    rw [List.replicate_succ, List.flatten_cons, countSleeps, List.countP_append]
    rw [countSleeps] at ih
    rw [ih]
    show 1 + m = m + 1
    omega

/-- Claim C5: when every poll response is a 202, `fetchFinal` exhausts its
120-attempt budget and throws the timeout error.  Exactly 120 requests
are issued and exactly 120 one-second timers are started; the effect
trace shows each timer is awaited to completion before the next request,
so when the loop throws, nothing is left pending — all 120 requests have
resolved and all 120 timers have elapsed. -/
theorem fetchFinal_timeout (resolve : String → String → Option String)
    (apiBase : String) (responses : Nat → HttpResponse) (id : Option JsValue)
    (h : ∀ j, (responses j).status = 202) :
    fetchFinal resolve apiBase responses id =
      (.thrown "Timed out waiting for result",
       (List.replicate 120 ([.fetchPoll (resultUrl resolve apiBase id),
                             .sleep 1000] : List Effect)).flatten)
    ∧ countPolls (fetchFinal resolve apiBase responses id).2 = 120
    ∧ countSleeps (fetchFinal resolve apiBase responses id).2 = 120 := by
  have key := fetchFinalGo_allNotReady responses (resultUrl resolve apiBase id) h 120 0
  refine ⟨key, ?_, ?_⟩
  · rw [fetchFinal, key]; exact countPolls_replicate _ 120
  · rw [fetchFinal, key]; exact countSleeps_replicate _ 120

/-- Witness for C5 on the constant 202 schedule. -/
theorem fetchFinal_timeout_witness :
    (fetchFinal fixtureResolve "/" (fun _ => ⟨202, .error "pending"⟩)
        (some (.str "r1"))).1 = .thrown "Timed out waiting for result"
    ∧ countPolls (fetchFinal fixtureResolve "/" (fun _ => ⟨202, .error "pending"⟩)
        (some (.str "r1"))).2 = 120 := by
  have h := fetchFinal_timeout fixtureResolve "/" (fun _ => ⟨202, .error "pending"⟩)
    (some (.str "r1")) (fun _ => rfl)
  exact ⟨by rw [h.1], h.2.1⟩

/-- A string of whitespace only trims to the empty string. -/
lemma trimString_eq_empty (task : String) (h : ∀ c ∈ task.data, isJsWhitespace c) :
    trimString task = "" := by
  rw [trimString, List.dropWhile_eq_nil_iff.mpr h]
  rfl

/-- Claim C4: on a task that is empty or whitespace-only, `runSwarm`
records the validation error synchronously and returns: the resulting
state differs from the previous one only in `error`, the effect trace is
empty (zero network calls — the check precedes the `api/run/start`
fetch), and any in-flight poll is untouched. -/
theorem empty_task_no_network (resolve : String → String → Option String)
    (apiBase : String) (task : String) (submitRes : HttpResponse) (w : World)
    (h : ∀ c ∈ task.data, isJsWhitespace c) :
    runSwarmStep resolve apiBase task submitRes w =
      ({ w with ui := { w.ui with
          error := some "Please enter a task before running the swarm." } }, []) := by
  rw [runSwarmStep, if_pos (Or.inr (trimString_eq_empty task h))]

/-- Witness for C4 on a whitespace-only task. -/
theorem empty_task_no_network_witness :
    runSwarmStep fixtureResolve "/" "   " ⟨500, .error "boom"⟩ initialWorld =
      ({ ui := { initialUi with
          error := some "Please enter a task before running the swarm." }
         poll := [] }, []) := by
  have h := empty_task_no_network fixtureResolve "/" "   " ⟨500, .error "boom"⟩
    initialWorld (by decide)
  exact h.trans rfl

/-- Claim C6: a stream message whose payload fails to decode as JSON does
not abort anything: the listener still appends exactly one `TraceEvent`
of the matching type, with every payload-derived field absent (and the
defaulted `level`/`message` fallbacks applied); no error is recorded, no
other state cell changes, and — for every non-terminal event — the
subscription stays open and no poll is started.  (A malformed `done`
payload still closes the stream and starts the poll, which is that
event's normal terminal behaviour, not a failure of parsing.) -/
theorem malformed_payload_recovered (parse : String → Except String JsValue)
    (conn : StreamConn) (kind : EventType) (payload : String) (now : Nat)
    (s : UiState) (e : String) (h : parse payload = .error e) :
    (handleStreamEvent parse conn kind payload now s).1.traces =
      s.traces ++ [{ ts := now, data :=
        match kind with
        | .ready => { type := .ready, message := some (.str "stream ready")
                      run_id := conn.run_id }
        | .start => { type := .start, run_id := conn.run_id }
        | .log => { type := .log, level := some (.str "LOG") }
        | .error => { type := .error, message := some (.str "server error") }
        | .done => { type := .done }
        | .summary => { type := .summary }
        | .clientError => { type := .clientError
                            message := some (.str "stream connection error") } }]
    ∧ (handleStreamEvent parse conn kind payload now s).1.error = s.error
    ∧ (handleStreamEvent parse conn kind payload now s).1.resp = s.resp
    ∧ (handleStreamEvent parse conn kind payload now s).1.loading = s.loading
    ∧ (handleStreamEvent parse conn kind payload now s).1.streaming = s.streaming
    ∧ (kind ≠ .done →
        (handleStreamEvent parse conn kind payload now s).1.esRef = s.esRef
        ∧ (handleStreamEvent parse conn kind payload now s).2 = none) := by
  cases kind <;>
    simp [handleStreamEvent, addTrace, safeParse, h, jsGet, jsOr]

/-- Witness for C6: a `log` event with an undecodable payload. -/
theorem malformed_payload_recovered_witness :
    (handleStreamEvent fixtureParse ⟨some (.str "r1")⟩ .log "oops" 5 initialUi).1.traces =
      [{ ts := 5, data := { type := .log, level := some (.str "LOG") } }]
    ∧ (handleStreamEvent fixtureParse ⟨some (.str "r1")⟩ .log "oops" 5 initialUi).1.error = none
    ∧ (handleStreamEvent fixtureParse ⟨some (.str "r1")⟩ .log "oops" 5 initialUi).1.esRef =
        initialUi.esRef
    ∧ (handleStreamEvent fixtureParse ⟨some (.str "r1")⟩ .log "oops" 5 initialUi).2 = none := by
  have h := malformed_payload_recovered fixtureParse ⟨some (.str "r1")⟩ .log "oops" 5
    initialUi "Unexpected token" rfl
  have hne := h.2.2.2.2.2 (by decide)
  exact ⟨h.1.trans rfl, h.2.1.trans rfl, hne.1, hne.2⟩

/-- Every listener appends exactly one event whose timestamp is the
consumer clock at append time, whatever the payload contains. -/
lemma handleStreamEvent_traces (parse : String → Except String JsValue)
    (conn : StreamConn) (kind : EventType) (payload : String) (now : Nat)
    (s : UiState) :
    ∃ t, (handleStreamEvent parse conn kind payload now s).1.traces =
        s.traces ++ [{ ts := now, data := t }] := by
  cases kind <;> exact ⟨_, rfl⟩

/-- Any non-`runSwarm` step extends the trace log on the right: the old
entries are a prefix of the new ones. -/
lemma stepAction_traces (parse : String → Except String JsValue)
    (resolve : String → String → Option String) (apiBase : String)
    (w : World) (a : Action) (ha : a.isRunInvocation = false) :
    ∃ rest, (stepAction parse resolve apiBase w a).1.ui.traces =
        w.ui.traces ++ rest := by
  cases a with
  | runStart task submitRes => simp [Action.isRunInvocation] at ha
  | deliver kind payload now =>
    cases href : w.ui.esRef with
    | none => exact ⟨[], by simp [stepAction, deliverStep, href]⟩
    | some conn =>
      obtain ⟨t, ht⟩ := handleStreamEvent_traces parse conn kind payload now w.ui
      cases hh : handleStreamEvent parse conn kind payload now w.ui with
      | mk ui1 spawned =>
        rw [hh] at ht
        simp only at ht
        cases spawned with
        | none =>
          refine ⟨[{ ts := now, data := t }], ?_⟩
          simp only [stepAction, deliverStep, href, hh]
          exact ht
        | some pt =>
          refine ⟨[{ ts := now, data := t }], ?_⟩
          simp only [stepAction, deliverStep, href, hh]
          exact ht
  | pollResolve i r =>
    rw [stepAction, pollStepAction]
    cases w.poll[i]? with
    | none => exact ⟨[], by simp⟩
    | some t =>
      cases pollIteration r with
      | value data => exact ⟨[], by simp⟩
      | raise msg => exact ⟨[], by simp⟩
      | retry =>
        by_cases hr : t.remaining ≤ 1
        · exact ⟨[], by simp [hr]⟩
        · exact ⟨[], by simp [hr]⟩

/-- Iterated version of `stepAction_traces`. -/
lemma runActions_traces (parse : String → Except String JsValue)
    (resolve : String → String → Option String) (apiBase : String) :
    ∀ (acts : List Action) (w : World),
      (∀ a ∈ acts, a.isRunInvocation = false) →
      ∃ rest, (runActions parse resolve apiBase w acts).1.ui.traces =
          w.ui.traces ++ rest := by
  intro acts
  induction acts with
  | nil => exact fun w _ => ⟨[], by simp [runActions]⟩
  | cons a rest ih =>
    intro w hall
    obtain ⟨tr1, h1⟩ := stepAction_traces parse resolve apiBase w a
      (hall a (List.mem_cons_self a rest))
    obtain ⟨tr2, h2⟩ := ih (stepAction parse resolve apiBase w a).1
      (fun b hb => hall b (List.mem_cons_of_mem a hb))
    refine ⟨tr1 ++ tr2, ?_⟩
    have hfst : (runActions parse resolve apiBase w (a :: rest)).1 =
        (runActions parse resolve apiBase (stepAction parse resolve apiBase w a).1 rest).1 := rfl
    rw [hfst, h2, h1, List.append_assoc]

/-- Claim C7: over any schedule of stream deliveries and poll
resolutions (no intervening `runSwarm`, which is the one operation
allowed to clear the log), the trace log only ever grows on the right —
the prior entries survive unchanged at their positions (no reordering)
and the length never decreases — and each stored event's `ts` is the
consumer-side clock value at the moment `addTrace` appended it,
independent of anything the producer put in the payload. -/
theorem trace_append_only (parse : String → Except String JsValue)
    (resolve : String → String → Option String) (apiBase : String) :
    (∀ (w : World) (acts : List Action),
      (∀ a ∈ acts, a.isRunInvocation = false) →
      (runActions parse resolve apiBase w acts).1.ui.traces.take
          w.ui.traces.length = w.ui.traces
      ∧ w.ui.traces.length ≤
          (runActions parse resolve apiBase w acts).1.ui.traces.length)
    ∧ (∀ (conn : StreamConn) (kind : EventType) (payload : String) (now : Nat)
        (s : UiState) (ev : TraceEvent),
        ev ∈ (handleStreamEvent parse conn kind payload now s).1.traces.drop
            s.traces.length →
        ev.ts = now) := by
  constructor
  · intro w acts hall
    obtain ⟨rest, hr⟩ := runActions_traces parse resolve apiBase acts w hall
    rw [hr]
    exact ⟨List.take_left _ _, by simp⟩
  · intro conn kind payload now s ev hev
    obtain ⟨t, ht⟩ := handleStreamEvent_traces parse conn kind payload now s
    rw [ht, List.drop_left] at hev
    rw [List.mem_singleton] at hev
    rw [hev]

/-- Witness for C7: two deliveries on an open stream, starting from a log
that already holds one event. -/
theorem trace_append_only_witness :
    (runActions fixtureParse fixtureResolve "/"
        { ui := { initialUi with
            esRef := some ⟨some (.str "r1")⟩
            traces := [{ ts := 1, data := { type := .ready } }] }
          poll := [] }
        [Action.deliver .log "oops" 5, Action.deliver .summary "oops" 6]).1.ui.traces.take 1 =
      [{ ts := 1, data := { type := .ready } }]
    ∧ (1 : Nat) ≤ (runActions fixtureParse fixtureResolve "/"
        { ui := { initialUi with
            esRef := some ⟨some (.str "r1")⟩
            traces := [{ ts := 1, data := { type := .ready } }] }
          poll := [] }
        [Action.deliver .log "oops" 5, Action.deliver .summary "oops" 6]).1.ui.traces.length := by
  have h := (trace_append_only fixtureParse fixtureResolve "/").1
    { ui := { initialUi with
        esRef := some ⟨some (.str "r1")⟩
        traces := [{ ts := 1, data := { type := .ready } }] }
      poll := [] }
    [Action.deliver .log "oops" 5, Action.deliver .summary "oops" 6]
    (by intro a ha; simp at ha; rcases ha with h1 | h1 <;> rw [h1] <;> rfl)
  exact h

/-- Counterexample to claim C1.  Concrete execution: run `run-1` is
started and receives its `done` event, so its `fetchFinal` loop is in
flight; a second `runSwarm` then starts run `run-2` (resetting `resp` to
`none` and attaching the new stream); finally the stale poll request of
`run-1` resolves successfully.  Its body populates `resp` even though
`run-2` is the current run (`runId` and the open stream both belong to
`run-2`): the stale `fetchFinal` completion is *not* discarded — nothing
in `fetchFinal` or its `setResp` checks the current handle. -/
theorem stale_poll_populates_resp_counterexample :
    (runActions fixtureParse fixtureResolve "/" initialWorld
      [Action.runStart "first task" ⟨200, .ok (.obj [("run_id", .str "run-1")])⟩,
       Action.deliver .done "\x7b\x7d" 10,
       Action.runStart "second task" ⟨200, .ok (.obj [("run_id", .str "run-2")])⟩]).1.ui.resp
      = none
    ∧ (runActions fixtureParse fixtureResolve "/" initialWorld
      [Action.runStart "first task" ⟨200, .ok (.obj [("run_id", .str "run-1")])⟩,
       Action.deliver .done "\x7b\x7d" 10,
       Action.runStart "second task" ⟨200, .ok (.obj [("run_id", .str "run-2")])⟩,
       Action.pollResolve 0 ⟨200, .ok (.obj [("status", .str "COMPLETED"),
                                             ("node_history", .arr [.str "researcher"])])⟩]).1.ui.resp
      = some (.obj [("status", .str "COMPLETED"),
                    ("node_history", .arr [.str "researcher"])])
    ∧ (runActions fixtureParse fixtureResolve "/" initialWorld
      [Action.runStart "first task" ⟨200, .ok (.obj [("run_id", .str "run-1")])⟩,
       Action.deliver .done "\x7b\x7d" 10,
       Action.runStart "second task" ⟨200, .ok (.obj [("run_id", .str "run-2")])⟩,
       Action.pollResolve 0 ⟨200, .ok (.obj [("status", .str "COMPLETED"),
                                             ("node_history", .arr [.str "researcher"])])⟩]).1.ui.runId
      = some (.str "run-2")
    ∧ (runActions fixtureParse fixtureResolve "/" initialWorld
      [Action.runStart "first task" ⟨200, .ok (.obj [("run_id", .str "run-1")])⟩,
       Action.deliver .done "\x7b\x7d" 10,
       Action.runStart "second task" ⟨200, .ok (.obj [("run_id", .str "run-2")])⟩,
       Action.pollResolve 0 ⟨200, .ok (.obj [("status", .str "COMPLETED"),
                                             ("node_history", .arr [.str "researcher"])])⟩]).1.ui.esRef
      = some ⟨some (.str "run-2")⟩ := by
  exact ⟨rfl, rfl, rfl, rfl⟩

/-- Once validation passes, `runSwarmStep` only rewrites the `ui` record
(leaving `poll` alone), and its effect trace starts with the close of any
previously open stream. -/
lemma runSwarmStep_shape (resolve : String → String → Option String)
    (apiBase : String) (task : String) (submitRes : HttpResponse) (w : World)
    (hval : ¬(task = "" ∨ trimString task = "")) :
    ∃ ui1 rest, runSwarmStep resolve apiBase task submitRes w =
      ({ w with ui := ui1 },
       (if w.ui.esRef.isSome then [Effect.closeStream] else []) ++ rest) := by
  rw [runSwarmStep, if_neg hval]
  dsimp only
  split
  · exact ⟨_, _, rfl⟩
  · split
    · exact ⟨_, _, rfl⟩
    · split
      · exact ⟨_, _, rfl⟩
      · exact ⟨_, _, rfl⟩

/-- `runSwarmStep` on a 200 response with a decodable non-null body:
the run id field is read off the body and the stream is attached. -/
lemma runSwarmStep_ok (resolve : String → String → Option String)
    (apiBase : String) (task : String) (w : World) (v : JsValue)
    (hval : ¬(task = "" ∨ trimString task = "")) (hnn : v ≠ .null) :
    runSwarmStep resolve apiBase task ⟨200, .ok v⟩ w =
      ({ w with ui := { w.ui with
          error := none, resp := none, runId := v.getField "run_id"
          traces := [], esRef := some ⟨v.getField "run_id"⟩
          activeTab := "Trace", loading := true, streaming := true } },
       (if w.ui.esRef.isSome then [Effect.closeStream] else []) ++
         [.fetchSubmit (buildUrl resolve apiBase "api/run/start"),
          .openStream (buildUrl resolve apiBase
            ("api/stream/" ++ jsTemplate (v.getField "run_id")))]) := by
  rw [runSwarmStep, if_neg hval]
  cases v with
  | null => exact absurd rfl hnn
  | bool b => rfl
  | num n => rfl
  | str s => rfl
  | arr elems => rfl
  | obj fields => rfl

/-- Claim C1 as amended: starting a new run does detach the prior
stream (the reset closes any open `EventSource`), but it does *not*
discard the prior handle's in-flight poll: `runSwarm` leaves every
pending `fetchFinal` loop untouched, and when such a loop's next
response is a success its body populates `resp` unconditionally — there
is no check against the still-current handle. -/
theorem run_start_ignores_pending_poll
    (resolve : String → String → Option String) (apiBase : String) :
    (∀ (w : World) (task : String) (submitRes : HttpResponse),
        (runSwarmStep resolve apiBase task submitRes w).1.poll = w.poll)
    ∧ (∀ (w : World) (i : Nat) (t : PollTask) (data : JsValue),
        w.poll[i]? = some t →
        (pollStepAction resolve apiBase i ⟨200, .ok data⟩ w).1.ui.resp = some data)
    ∧ (∀ (w : World) (task : String) (submitRes : HttpResponse),
        ¬(task = "" ∨ trimString task = "") → w.ui.esRef.isSome = true →
        Effect.closeStream ∈ (runSwarmStep resolve apiBase task submitRes w).2) := by
  refine ⟨?_, ?_, ?_⟩
  · intro w task submitRes
    by_cases hv : task = "" ∨ trimString task = ""
    · rw [runSwarmStep, if_pos hv]
    · obtain ⟨ui1, rest, heq⟩ := runSwarmStep_shape resolve apiBase task submitRes w hv
      rw [heq]
  · intro w i t data hi
    simp [pollStepAction, hi, pollIteration, HttpResponse.isOk]
  · intro w task submitRes hval href
    obtain ⟨ui1, rest, heq⟩ := runSwarmStep_shape resolve apiBase task submitRes w hval
    rw [heq, href]
    simp

/-- Witness for the amended C1 on a concrete world with one pending
stale poll. -/
theorem run_start_ignores_pending_poll_witness :
    (runSwarmStep fixtureResolve "/" "second task"
        ⟨200, .ok (.obj [("run_id", .str "run-2")])⟩
        { ui := initialUi, poll := [⟨some (.str "run-1"), 120⟩] }).1.poll
      = [⟨some (.str "run-1"), 120⟩]
    ∧ (pollStepAction fixtureResolve "/" 0
        ⟨200, .ok (.obj [("status", .str "COMPLETED")])⟩
        { ui := initialUi, poll := [⟨some (.str "run-1"), 120⟩] }).1.ui.resp
      = some (.obj [("status", .str "COMPLETED")]) := by
  have h := run_start_ignores_pending_poll fixtureResolve "/"
  exact ⟨(h.1 { ui := initialUi, poll := [⟨some (.str "run-1"), 120⟩] }
            "second task" ⟨200, .ok (.obj [("run_id", .str "run-2")])⟩).trans rfl,
         h.2.1 { ui := initialUi, poll := [⟨some (.str "run-1"), 120⟩] } 0
           ⟨some (.str "run-1"), 120⟩ (.obj [("status", .str "COMPLETED")]) rfl⟩

/-- Counterexample to claim C3.  A submit response with a success status
and the valid JSON body `\x7b\x7d` — an object with no `runId` field —
does not fail: no error is recorded and the run proceeds to the
streaming phase, opening the stream at `api/stream/undefined`. -/
theorem missing_runId_streams_counterexample :
    (runSwarmStep fixtureResolve "/" "do the thing" ⟨200, .ok (.obj [])⟩
        initialWorld).1.ui.error = none
    ∧ (runSwarmStep fixtureResolve "/" "do the thing" ⟨200, .ok (.obj [])⟩
        initialWorld).1.ui.runId = none
    ∧ (runSwarmStep fixtureResolve "/" "do the thing" ⟨200, .ok (.obj [])⟩
        initialWorld).1.ui.esRef = some ⟨none⟩
    ∧ (runSwarmStep fixtureResolve "/" "do the thing" ⟨200, .ok (.obj [])⟩
        initialWorld).1.ui.streaming = true
    ∧ (runSwarmStep fixtureResolve "/" "do the thing" ⟨200, .ok (.obj [])⟩
        initialWorld).2 =
      [.fetchSubmit "/api/run/start", .openStream "/api/stream/undefined"] := by
  exact ⟨rfl, rfl, rfl, rfl, rfl⟩

/-- Claim C3 as amended: a success-status submit response whose body
fails to parse as JSON (or is `null`, so the destructuring throws) does
fail the run — the error is recorded, the busy flags are cleared and no
stream is attached.  But a success response whose JSON body merely lacks
a usable `runId` field does not fail: `runId` is set to `undefined` and
the run proceeds to the streaming phase, opening the stream at
`api/stream/undefined`. -/
theorem submit_body_failure_handling (resolve : String → String → Option String)
    (apiBase : String) :
    (∀ (w : World) (task : String) (e : String), trimString task ≠ "" →
        (runSwarmStep resolve apiBase task ⟨200, .error e⟩ w).1.ui.error =
          some (jsOrString e "Request failed")
        ∧ (runSwarmStep resolve apiBase task ⟨200, .error e⟩ w).1.ui.esRef = none
        ∧ (runSwarmStep resolve apiBase task ⟨200, .error e⟩ w).1.ui.streaming = false)
    ∧ (∀ (w : World) (task : String) (v : JsValue), trimString task ≠ "" →
        v ≠ .null → v.getField "run_id" = none →
        (runSwarmStep resolve apiBase task ⟨200, .ok v⟩ w).1.ui.error = none
        ∧ (runSwarmStep resolve apiBase task ⟨200, .ok v⟩ w).1.ui.runId = none
        ∧ (runSwarmStep resolve apiBase task ⟨200, .ok v⟩ w).1.ui.esRef = some ⟨none⟩
        ∧ (runSwarmStep resolve apiBase task ⟨200, .ok v⟩ w).1.ui.streaming = true
        ∧ Effect.openStream (buildUrl resolve apiBase "api/stream/undefined") ∈
            (runSwarmStep resolve apiBase task ⟨200, .ok v⟩ w).2) := by
  have hval : ∀ task : String, trimString task ≠ "" →
      ¬(task = "" ∨ trimString task = "") := by
    intro task ht h
    rcases h with h | h
    · exact ht (by rw [h]; rfl)
    · exact ht h
  constructor
  · intro w task e ht
    rw [runSwarmStep, if_neg (hval task ht)]
    exact ⟨rfl, rfl, rfl⟩
  · intro w task v ht hnull hget
    rw [runSwarmStep_ok resolve apiBase task w v (hval task ht) hnull, hget]
    have hurl : ("api/stream/" ++ jsTemplate none) = "api/stream/undefined" := rfl
    rw [hurl]
    exact ⟨rfl, rfl, rfl, rfl, List.mem_append_right _ (by simp)⟩

/-- Witness for the amended C3 on concrete submit responses. -/
theorem submit_body_failure_handling_witness :
    (runSwarmStep fixtureResolve "/" "do the thing"
        ⟨200, .error "Unexpected token"⟩ initialWorld).1.ui.error =
      some "Unexpected token"
    ∧ (runSwarmStep fixtureResolve "/" "do the thing"
        ⟨200, .error "Unexpected token"⟩ initialWorld).1.ui.esRef = none
    ∧ (runSwarmStep fixtureResolve "/" "do the thing" ⟨200, .ok (.obj [])⟩
        initialWorld).1.ui.esRef = some ⟨none⟩ := by
  have h1 := (submit_body_failure_handling fixtureResolve "/").1 initialWorld
    "do the thing" "Unexpected token" (by decide)
  have h2 := (submit_body_failure_handling fixtureResolve "/").2 initialWorld
    "do the thing" (.obj []) (by decide) (by simp) rfl
  exact ⟨h1.1.trans rfl, h1.2.1, h2.2.2.1⟩

end SwarmUI
